import Mathlib

/-! Verification of scripts/convert_excel_to_jsonl.py.

The script is a single sequential pass: load a labelmap JSON, load a
spreadsheet, validate columns, classify per-row indicator values, and emit
one JSON record per kept row. We embed it shallowly: Python floats become
rationals, the Python float-literal reader becomes an explicit parameter
of type String to Option Rat, rows and dicts become association lists, and
fallible code returns Except. -/

namespace ConvertDataset

/-- A spreadsheet cell or indicator value: the scalar shapes the script
distinguishes. `null` covers both Python None and a pandas NaN, which the
script treats identically (both satisfy pd.isna). -/
inductive Value where
  | null
  | bool (b : Bool)
  | num (x : Rat)
  | str (s : String)
deriving DecidableEq

/-- The numeric reader used by the script (Python float() applied to a
string), abstracted as a parameter: returns none when parsing fails. -/
abbrev FloatParse := String → Option Rat

/-- One spreadsheet row: an association list from column name to value. -/
abbrev Row := List (String × Value)

/-- Python str.strip(): drop whitespace from both ends. -/
def pyStrip (s : String) : String :=
  String.mk (List.rdropWhile Char.isWhitespace (List.dropWhile Char.isWhitespace s.data))

/-- Python str.lower(), character by character (str.lower of the script
only ever meets ASCII tokens, where per-character lowering is exact). -/
def pyLower (s : String) : String :=
  String.mk (s.data.map Char.toLower)

/-- The truthy string tokens of is_positive (source line 66). -/
def truthyStrings : List String := ["1", "true", "yes", "y", "on"]

/-- The falsy string tokens of is_positive (source line 68). -/
def falsyStrings : List String := ["0", "false", "no", "n", "off", ""]

/-- Embedding of is_positive (source lines 43-74): decide whether an
indicator value counts as active, given a threshold. -/
def is_positive (pf : FloatParse) (v : Value) (threshold : Rat) : Bool :=
  match v with
  | Value.null => false
  | Value.bool b => b
  | Value.num x => decide (x > threshold)
  | Value.str s0 =>
      let s := pyLower (pyStrip s0)
      if s ∈ truthyStrings then true
      else if s ∈ falsyStrings then false
      else
        match pf s with
        | some x => decide (x > threshold)
        | none => false

/-- The classifier as the specification section 4.2 words it: the stated
precedence cascade, first match wins, written from the spec text for
comparison with the source embedding. -/
def is_positive_spec (pf : FloatParse) (v : Value) (threshold : Rat) : Bool :=
  match v with
  | Value.null => false
  | Value.bool b => b
  | Value.num x => decide (x > threshold)
  | Value.str s0 =>
      let s := pyLower (pyStrip s0)
      if s = "1" ∨ s = "true" ∨ s = "yes" ∨ s = "y" ∨ s = "on" then true
      else if s = "0" ∨ s = "false" ∨ s = "no" ∨ s = "n" ∨ s = "off" ∨ s = "" then false
      else
        match pf s with
        | some x => decide (x > threshold)
        | none => false

/-- The loop of row_to_labels (source lines 85-90), with the two growing
lists as accumulators exactly as the Python loop appends to them: walk
the remaining label names in declared order; a name absent from the row
is skipped; an active name is appended together with its label2id entry,
a missing entry raising KeyError (here: an error carrying the offending
name, as Python KeyError carries the key). -/
def row_to_labels_go (pf : FloatParse) (row : Row) (label2id : List (String × Int))
    (threshold : Rat) : List String → List String → List Int →
    Except String (List String × List Int)
  | [], labels, label_ids => Except.ok (labels, label_ids)
  | name :: rest, labels, label_ids =>
      match row.lookup name with
      | none => row_to_labels_go pf row label2id threshold rest labels label_ids
      | some v =>
          if is_positive pf v threshold then
            match label2id.lookup name with
            | none => Except.error name
            | some i =>
                row_to_labels_go pf row label2id threshold rest
                  (labels ++ [name]) (label_ids ++ [i])
          else row_to_labels_go pf row label2id threshold rest labels label_ids

/-- Embedding of row_to_labels (source lines 77-92): run the loop from
two empty lists. -/
def row_to_labels (pf : FloatParse) (row : Row) (label_names : List String)
    (label2id : List (String × Int)) (threshold : Rat) :
    Except String (List String × List Int) :=
  row_to_labels_go pf row label2id threshold label_names [] []

/-- Whether a label name is present in the row and its indicator active:
the condition under which row_to_labels keeps a name. -/
def rowActive (pf : FloatParse) (row : Row) (threshold : Rat) (name : String) : Bool :=
  match row.lookup name with
  | some v => is_positive pf v threshold
  | none => false

/-- JSON values, as json.load produces them. Objects keep the textual
field order; duplicate keys are resolved by dictLookup below. -/
inductive Json where
  | null
  | bool (b : Bool)
  | num (x : Rat)
  | str (s : String)
  | arr (items : List Json)
  | obj (fields : List (String × Json))

/-- Lookup in a parsed JSON object. Python json.load builds a dict in
which a duplicated key keeps the last value, hence the reverse. -/
def dictLookup (m : List (String × Json)) (k : String) : Option Json :=
  m.reverse.lookup k

/-- Embedding of load_labelmap (source lines 31-40), applied to the parsed
JSON object: check the three required keys in order, then that label_names
is a list and label2id a dict; a failure raises ValueError
(here: Except.error with the message text). -/
def load_labelmap (m : List (String × Json)) : Except String (List (String × Json)) :=
  match dictLookup m "text_column" with
  | none => Except.error "labelmap missing key: text_column"
  | some _ =>
      match dictLookup m "label_names" with
      | none => Except.error "labelmap missing key: label_names"
      | some jn =>
          match dictLookup m "label2id" with
          | none => Except.error "labelmap missing key: label2id"
          | some ji =>
              match jn, ji with
              | Json.arr _, Json.obj _ => Except.ok m
              | _, _ => Except.error "labelmap has invalid schema (label_names must be list, label2id must be dict)"

/-- The labelmap fields as main extracts them (source lines 122-124). -/
structure Labelmap where
  text_column : String
  label_names : List String
  label2id : List (String × Int)
deriving DecidableEq

/-- Read a JSON array as a list of strings (label names). -/
def decodeStrings (items : List Json) : Option (List String) :=
  items.mapM (fun j => match j with | Json.str s => some s | _ => none)

/-- Read a JSON object as a name to integer map (label ids). The script
applies int() only at use time; ids that are not integral numbers take the
dynamically typed path, outside the modelled claims. -/
def decodeIds (fields : List (String × Json)) : Option (List (String × Int)) :=
  fields.mapM (fun kv =>
    match kv.2 with
    | Json.num x => if x.den = 1 then some (kv.1, x.num) else none
    | _ => none)

/-- Extract the typed labelmap view main works with. A labelmap that
passes load_labelmap but holds unexpectedly typed fields (for instance a
non-string text_column) follows dynamic Python typing not modelled here;
no claim depends on such inputs. -/
def decodeLabelmap (m : List (String × Json)) : Option Labelmap :=
  match dictLookup m "text_column", dictLookup m "label_names", dictLookup m "label2id" with
  | some (Json.str tc), some (Json.arr names), some (Json.obj ids) =>
      match decodeStrings names, decodeIds ids with
      | some ns, some l2 => some { text_column := tc, label_names := ns, label2id := l2 }
      | _, _ => none
  | _, _, _ => none

/-- One output record (source lines 166-170). labels is none when the
field is omitted from the record. -/
structure Record where
  text : String
  labels : Option (List String)
  label_ids : List Int
deriving DecidableEq

/-- The command line options the conversion loop reads. -/
structure Args where
  threshold : Rat
  include_labels : Bool
  no_labels : Bool
  skip_no_label : Bool
deriving DecidableEq

/-- The loaded spreadsheet: its column names and its rows in order. -/
structure Sheet where
  columns : List String
  rows : List Row
deriving DecidableEq

/-- The run summary counters (source lines 146-149). -/
structure Summary where
  n_total : Nat
  n_written : Nat
  n_skipped_empty_text : Nat
  n_skipped_no_label : Nat
deriving DecidableEq

/-- The mutable state of the row loop: the four counters plus the records
written so far, in emission order. -/
structure LoopState where
  n_total : Nat
  n_written : Nat
  n_skipped_empty_text : Nat
  n_skipped_no_label : Nat
  out : List Record
deriving DecidableEq

/-- The state before the first row (source lines 146-149). -/
def initState : LoopState :=
  { n_total := 0, n_written := 0, n_skipped_empty_text := 0
    n_skipped_no_label := 0, out := [] }

/-- Python str() of a cell value, as the text extraction applies it. The
numeric rendering is abstract (only its non-relevance matters: null values
are caught by pd.isna before str is reached). -/
def str_of_value : Value → String
  | Value.null => "None"
  | Value.bool true => "True"
  | Value.bool false => "False"
  | Value.num x => toString x
  | Value.str s => s

/-- Text extraction for one row (source lines 154-155): row.get with
default empty string, empty when pd.isna holds, else str(...).strip(). -/
def extractText (row : Row) (text_col : String) : String :=
  match row.lookup text_col with
  | none => ""
  | some Value.null => ""
  | some v => pyStrip (str_of_value v)

/-- One iteration of the row loop (source lines 152-173): bump n_total,
skip empty text, classify, optionally skip label-free rows, else append
the record. A KeyError from row_to_labels aborts the iteration. -/
def processRow (pf : FloatParse) (args : Args) (lm : Labelmap)
    (st : LoopState) (row : Row) : Except String LoopState :=
  let st1 := { st with n_total := st.n_total + 1 }
  let text := extractText row lm.text_column
  if text = "" then
    Except.ok { st1 with n_skipped_empty_text := st1.n_skipped_empty_text + 1 }
  else
    match row_to_labels pf row lm.label_names lm.label2id args.threshold with
    | Except.error e => Except.error e
    | Except.ok (labels, label_ids) =>
        if args.skip_no_label && label_ids.length == 0 then
          Except.ok { st1 with n_skipped_no_label := st1.n_skipped_no_label + 1 }
        else
          let record : Record :=
            { text := text
              labels := if args.include_labels && !args.no_labels then some labels else none
              label_ids := label_ids }
          Except.ok { st1 with n_written := st1.n_written + 1, out := st1.out ++ [record] }

/-- The whole row loop, rows in spreadsheet order. -/
def runRows (pf : FloatParse) (args : Args) (lm : Labelmap) :
    LoopState → List Row → Except String LoopState
  | st, [] => Except.ok st
  | st, row :: rest =>
      match processRow pf args lm st row with
      | Except.error e => Except.error e
      | Except.ok st2 => runRows pf args lm st2 rest

/-- The record one row contributes, if any: none when the row is skipped
for empty text or for having no active label (or when classification
fails, a case excluded wherever this function is used). -/
def rowEmission (pf : FloatParse) (args : Args) (lm : Labelmap) (row : Row) :
    Option Record :=
  let text := extractText row lm.text_column
  if text = "" then none
  else
    match row_to_labels pf row lm.label_names lm.label2id args.threshold with
    | Except.error _ => none
    | Except.ok (labels, label_ids) =>
        if args.skip_no_label && label_ids.length == 0 then none
        else some
          { text := text
            labels := if args.include_labels && !args.no_labels then some labels else none
            label_ids := label_ids }

/-- Project the loop state onto the reported counters. -/
def summaryOfState (st : LoopState) : Summary :=
  { n_total := st.n_total, n_written := st.n_written
    n_skipped_empty_text := st.n_skipped_empty_text
    n_skipped_no_label := st.n_skipped_no_label }

/-- The stdout summary (source lines 175-180): the no-label line appears
only when skip_no_label is set. The final output-path line involves
filesystem resolution and is not modelled. -/
def summaryLines (args : Args) (st : LoopState) : List String :=
  ["Done.",
   "Input rows: " ++ toString st.n_total,
   "Written:    " ++ toString st.n_written,
   "Skipped (empty text): " ++ toString st.n_skipped_empty_text]
  ++ (if args.skip_no_label then ["Skipped (no labels): " ++ toString st.n_skipped_no_label] else [])

/-- The columns required but absent (source line 134). -/
def missingColumns (lm : Labelmap) (sheet : Sheet) : List String :=
  (lm.text_column :: lm.label_names).filter (fun c => !(sheet.columns.contains c))

/-- The stderr lines of the missing-column failure (source lines 136-141):
each missing column, then each available column. -/
def missingColumnsStderr (missing cols : List String) : List String :=
  ["ERROR: Excel missing required columns:"]
  ++ missing.map (fun c => "  - " ++ c)
  ++ ["", "Available columns:"]
  ++ cols.map (fun c => "  - " ++ c)

/-- How a run can end. exited carries the returned code, the stderr and
stdout lines, the output file content as records (none when the file was
never opened) and the summary counters. The two uncaught constructors are
exceptions that escape main; dynamic marks the dynamically typed labelmap
path left unmodelled. -/
inductive Outcome where
  | exited (code : Nat) (stderrLines stdoutLines : List String)
      (file : Option (List Record)) (summary : Option Summary)
  | uncaughtValueError (msg : String)
  | uncaughtKeyError (key : String)
  | dynamic
deriving DecidableEq

/-- The process exit code of an outcome: an uncaught Python exception
terminates the interpreter with code 1 (traceback on stderr). -/
def exitCodeOf : Outcome → Option Nat
  | Outcome.exited c _ _ _ _ => some c
  | Outcome.uncaughtValueError _ => some 1
  | Outcome.uncaughtKeyError _ => some 1
  | Outcome.dynamic => none

/-- The conversion once the labelmap is loaded (source lines 134-181):
column validation precedes opening the output file; then the row loop and
the summary. -/
def runConversion (pf : FloatParse) (args : Args) (lm : Labelmap) (sheet : Sheet) : Outcome :=
  let missing := missingColumns lm sheet
  if missing.isEmpty then
    match runRows pf args lm initState sheet.rows with
    | Except.error e => Outcome.uncaughtKeyError e
    | Except.ok st =>
        Outcome.exited 0 [] (summaryLines args st) (some st.out) (some (summaryOfState st))
  else
    Outcome.exited 2 (missingColumnsStderr missing sheet.columns) [] none none

/-- Embedding of main past argument parsing and file existence (source
lines 121-181). The load_labelmap call at line 121 is not wrapped in any
try block, so its ValueError escapes main uncaught. -/
def main_model (pf : FloatParse) (args : Args) (labelmapJson : List (String × Json))
    (sheet : Sheet) : Outcome :=
  match load_labelmap labelmapJson with
  | Except.error msg => Outcome.uncaughtValueError msg
  | Except.ok _ =>
      match decodeLabelmap labelmapJson with
      | some lm => runConversion pf args lm sheet
      | none => Outcome.dynamic

/-- Hexadecimal digit for string escapes. -/
def hexDigit (n : Nat) : Char :=
  if n < 10 then Char.ofNat (48 + n) else Char.ofNat (87 + n)

/-- json.dumps escaping of one character, with ensure_ascii False: only
the quote, the backslash and control characters are escaped. -/
def escapeChar (c : Char) : String :=
  if c = '"' then "\\\""
  else if c = '\\' then "\\\\"
  else if c = '\n' then "\\n"
  else if c = '\r' then "\\r"
  else if c = '\t' then "\\t"
  else if c = '\x08' then "\\b"
  else if c = '\x0c' then "\\f"
  else if c.toNat < 32 then
    "\\u00" ++ String.mk [hexDigit (c.toNat / 16), hexDigit (c.toNat % 16)]
  else String.mk [c]

/-- json.dumps of a string value. -/
def encodeJsonString (s : String) : String :=
  "\"" ++ String.join (s.data.map escapeChar) ++ "\""

/-- json.dumps of a list of strings, default separators. -/
def encodeStrList (xs : List String) : String :=
  "[" ++ String.intercalate ", " (xs.map encodeJsonString) ++ "]"

/-- json.dumps of a list of integers, default separators. -/
def encodeIntList (xs : List Int) : String :=
  "[" ++ String.intercalate ", " (xs.map toString) ++ "]"

/-- json.dumps of one record (source line 172), keys in insertion order:
text, labels when included, label_ids. -/
def encodeRecord (r : Record) : String :=
  "\x7b\"text\": " ++ encodeJsonString r.text
  ++ (match r.labels with
      | some ls => ", \"labels\": " ++ encodeStrList ls
      | none => "")
  ++ ", \"label_ids\": " ++ encodeIntList r.label_ids ++ "\x7d"

/-- The bytes of the output file: one encoded record per line, newline
terminated. -/
def fileString (recs : List Record) : String :=
  String.join (recs.map (fun r => encodeRecord r ++ "\n"))

/-- The output file bytes of an outcome, none when no file content is
modelled (file never opened, or run aborted by an exception). -/
def fileBytesOf : Outcome → Option String
  | Outcome.exited _ _ _ (some recs) _ => some (fileString recs)
  | _ => none

/-- The summary counters of an outcome, if the run reached the summary. -/
def summariesOf : Outcome → Option Summary
  | Outcome.exited _ _ _ _ s => s
  | _ => none

/-- The counter partition invariant of the row loop (source lines 146-173):
every row seen was written or skipped for exactly one reason. -/
def counterInv (st : LoopState) : Prop :=
  st.n_total = st.n_written + st.n_skipped_empty_text + st.n_skipped_no_label

/-- The bad shapes of a labelmap named by the schema claim: a required key
absent, or label_names not a list, or label2id not a dict. -/
def labelmapBadShape (m : List (String × Json)) : Prop :=
  dictLookup m "text_column" = none
  ∨ dictLookup m "label_names" = none
  ∨ dictLookup m "label2id" = none
  ∨ (∃ j, dictLookup m "label_names" = some j ∧ ∀ items, j ≠ Json.arr items)
  ∨ (∃ j, dictLookup m "label2id" = some j ∧ ∀ fields, j ≠ Json.obj fields)

/-- A float reader that always fails: enough for the concrete runs below,
whose indicator strings are all in the token sets. -/
def pf0 : FloatParse := fun _ => none

/-- Default flag values of the script: threshold one half, labels
included, no skipping. -/
def args0 : Args :=
  { threshold := mkRat 1 2, include_labels := true, no_labels := false, skip_no_label := false }

/-- The default flags with skip_no_label switched on. -/
def argsSkip : Args :=
  { args0 with skip_no_label := true }

/-- A small concrete labelmap: two labels with ids 0 and 1. -/
def lm0 : Labelmap :=
  { text_column := "text", label_names := ["F", "A"], label2id := [("F", 0), ("A", 1)] }

/-- The same labelmap as parsed JSON, as load_labelmap receives it. -/
def lmJson0 : List (String × Json) :=
  [("text_column", Json.str "text"),
   ("label_names", Json.arr [Json.str "F", Json.str "A"]),
   ("label2id", Json.obj [("F", Json.num 0), ("A", Json.num 1)])]

/-- A labelmap JSON with the text_column key missing. -/
def badLabelmap : List (String × Json) :=
  [("label_names", Json.arr []), ("label2id", Json.obj [])]

/-- A concrete row: active F, inactive A. -/
def rowFA : Row :=
  [("text", Value.str "Must respond in 2s"), ("F", Value.str "1"), ("A", Value.num 0)]

/-- A concrete row whose text is whitespace only. -/
def rowBlank : Row :=
  [("text", Value.str "   "), ("F", Value.str "1"), ("A", Value.num 0)]

/-- A concrete row with no active label. -/
def rowNone : Row :=
  [("text", Value.str "plain"), ("F", Value.num 0), ("A", Value.str "no")]

/-- A small concrete sheet holding the three rows above. -/
def sheet0 : Sheet :=
  { columns := ["text", "F", "A"], rows := [rowFA, rowBlank, rowNone] }

/-- The record rowFA produces under default flags. -/
def recFA : Record :=
  { text := "Must respond in 2s", labels := some ["F"], label_ids := [0] }

/-- The record rowNone produces under default flags (no active label, row
still written with empty label_ids). -/
def recNone : Record :=
  { text := "plain", labels := some [], label_ids := [] }

/-- A sheet lacking the label column A required by lm0. -/
def sheetMissing : Sheet :=
  { columns := ["text", "F"], rows := [] }

/-- The loop state after running sheet0 under default flags. -/
def stFinal0 : LoopState :=
  { n_total := 3, n_written := 2, n_skipped_empty_text := 1, n_skipped_no_label := 0
    out := [recFA, recNone] }

theorem dropWhile_rdropWhile_self {α} (p : α → Bool) (l : List α)
    (hl : List.dropWhile p l = l) :
    List.dropWhile p (List.rdropWhile p l) = List.rdropWhile p l := by
  obtain ⟨t, ht⟩ := List.dropWhile_suffix (l := l.reverse) p
  have hl2 : l = List.rdropWhile p l ++ t.reverse := by
    have h2 := congrArg List.reverse ht
    simp only [List.reverse_append, List.reverse_reverse] at h2
    rw [List.rdropWhile]
    exact h2.symm
  cases hr : List.rdropWhile p l with
  | nil => simp
  | cons a u =>
      have hma : l = a :: (u ++ t.reverse) := by
        rw [hl2, hr]; rfl
      have hpa : ¬ p a = true := by
        intro hp
        rw [hma] at hl
        rw [List.dropWhile_cons_of_pos hp] at hl
        have hlen := (List.dropWhile_suffix (l := u ++ t.reverse) p).length_le
        have hlen2 := congrArg List.length hl
        rw [List.length_cons] at hlen2
        omega
      simp [List.dropWhile, hpa]

theorem pyStrip_idem (s : String) : pyStrip (pyStrip s) = pyStrip s := by
  unfold pyStrip
  have h1 : List.dropWhile Char.isWhitespace
      (List.rdropWhile Char.isWhitespace (List.dropWhile Char.isWhitespace s.data)) =
      List.rdropWhile Char.isWhitespace (List.dropWhile Char.isWhitespace s.data) :=
    dropWhile_rdropWhile_self _ _ (List.dropWhile_idempotent _ _)
  simp only [h1, List.rdropWhile_idempotent]

/-- C1: the indicator classifier decides activity by the stated precedence
with first match wins: a null-equivalent value is inactive, a boolean
yields its literal value, a number is active iff strictly above the
threshold, a trimmed lowercased string in the truthy set is active and one
in the falsy set inactive, and any other string is active iff it parses as
a number strictly above the threshold, inactive when parsing fails. -/
theorem is_positive_matches_spec (pf : FloatParse) (v : Value) (t : Rat) :
    is_positive pf v t = is_positive_spec pf v t := by
  cases v <;>
    simp [is_positive, is_positive_spec, truthyStrings, falsyStrings, List.mem_cons]

theorem row_to_labels_go_ok (pf : FloatParse) (row : Row) (l2id : List (String × Int))
    (t : Rat) :
    ∀ (names ls : List String) (ids : List Int) (L : List String) (I : List Int),
    row_to_labels_go pf row l2id t names ls ids = Except.ok (L, I) →
    ∃ TL TI, L = ls ++ TL ∧ I = ids ++ TI
      ∧ TL = names.filter (rowActive pf row t)
      ∧ TL.length = TI.length
      ∧ ∀ i (h1 : i < TL.length) (h2 : i < TI.length),
          l2id.lookup (TL.get ⟨i, h1⟩) = some (TI.get ⟨i, h2⟩) := by
  intro names
  induction names with
  | nil =>
      intro ls ids L I h
      simp only [row_to_labels_go, Except.ok.injEq, Prod.mk.injEq] at h
      obtain ⟨h1, h2⟩ := h
      subst h1; subst h2
      refine ⟨[], [], by simp, by simp, by simp, rfl, ?_⟩
      intro i h1 h2
      simp at h1
  | cons name rest ih =>
      intro ls ids L I h
      rw [row_to_labels_go] at h
      cases hrow : row.lookup name with
      | none =>
          rw [hrow] at h
          simp only [] at h
          obtain ⟨TL, TI, hL, hI, hfil, hlen, hpar⟩ := ih ls ids L I h
          have hact : rowActive pf row t name = false := by
            simp [rowActive, hrow]
          exact ⟨TL, TI, hL, hI, by simp [List.filter_cons, hact, hfil], hlen, hpar⟩
      | some v =>
          rw [hrow] at h
          simp only [] at h
          by_cases hact : is_positive pf v t = true
          · rw [if_pos hact] at h
            cases hid : l2id.lookup name with
            | none => rw [hid] at h; simp at h
            | some i =>
                rw [hid] at h
                obtain ⟨TL, TI, hL, hI, hfil, hlen, hpar⟩ :=
                  ih (ls ++ [name]) (ids ++ [i]) L I h
                have hactb : rowActive pf row t name = true := by
                  simp [rowActive, hrow, hact]
                refine ⟨name :: TL, i :: TI, ?_, ?_, ?_, by simp [hlen], ?_⟩
                · rw [hL, List.append_assoc]; rfl
                · rw [hI, List.append_assoc]; rfl
                · simp [List.filter_cons, hactb, hfil]
                · intro j hj1 hj2
                  cases j with
                  | zero => simpa using hid
                  | succ n =>
                      simpa using hpar n (by simpa using hj1) (by simpa using hj2)
          · rw [if_neg hact] at h
            obtain ⟨TL, TI, hL, hI, hfil, hlen, hpar⟩ := ih ls ids L I h
            have hactb : rowActive pf row t name = false := by
              simp only [rowActive, hrow]
              exact Bool.not_eq_true _ ▸ (by simpa using hact)
            exact ⟨TL, TI, hL, hI, by simp [List.filter_cons, hactb, hfil], hlen, hpar⟩

/-- C2: the labels and label_ids lists returned by row_to_labels have
equal length, each id is the label2id image of the label at the same
position, and labels is exactly label_names filtered to the names present
in the row with an active indicator, in declared order. -/
theorem row_to_labels_parallel (pf : FloatParse) (row : Row) (names : List String)
    (l2id : List (String × Int)) (t : Rat) (labels : List String) (ids : List Int)
    (h : row_to_labels pf row names l2id t = Except.ok (labels, ids)) :
    labels.length = ids.length
    ∧ (∀ i (h1 : i < labels.length) (h2 : i < ids.length),
        l2id.lookup (labels.get ⟨i, h1⟩) = some (ids.get ⟨i, h2⟩))
    ∧ labels = names.filter (rowActive pf row t) := by
  obtain ⟨TL, TI, hL, hI, hfil, hlen, hpar⟩ :=
    row_to_labels_go_ok pf row l2id t names [] [] labels ids h
  simp only [List.nil_append] at hL hI
  subst hL; subst hI
  exact ⟨hlen, hpar, hfil⟩

/-- C2 witness: the theorem applied to the concrete row with F active. -/
theorem row_to_labels_parallel_witness :
    row_to_labels pf0 rowFA ["F", "A"] [("F", 0), ("A", 1)] (mkRat 1 2) =
      Except.ok (["F"], [0])
    ∧ (["F"] : List String).length = ([0] : List Int).length
    ∧ (∀ i (h1 : i < (["F"] : List String).length) (h2 : i < ([0] : List Int).length),
        [("F", (0 : Int)), ("A", 1)].lookup ((["F"] : List String).get ⟨i, h1⟩) =
          some (([0] : List Int).get ⟨i, h2⟩))
    ∧ (["F"] : List String) = (["F", "A"] : List String).filter (rowActive pf0 rowFA (mkRat 1 2)) :=
  ⟨by rfl, row_to_labels_parallel pf0 rowFA ["F", "A"] [("F", 0), ("A", 1)] (mkRat 1 2)
    ["F"] [0] (by rfl)⟩

theorem row_to_labels_go_error_iff (pf : FloatParse) (row : Row)
    (l2id : List (String × Int)) (t : Rat) :
    ∀ (names ls : List String) (ids : List Int),
    (∃ e, row_to_labels_go pf row l2id t names ls ids = Except.error e)
    ↔ ∃ name, name ∈ names ∧ ∃ v, row.lookup name = some v
        ∧ is_positive pf v t = true ∧ l2id.lookup name = none := by
  intro names
  induction names with
  | nil => intro ls ids; simp [row_to_labels_go]
  | cons name rest ih =>
      intro ls ids
      rw [row_to_labels_go]
      cases hrow : row.lookup name with
      | none =>
          simp only []
          rw [ih ls ids]
          constructor
          · rintro ⟨nm, hmem, hv⟩
            exact ⟨nm, List.mem_cons_of_mem _ hmem, hv⟩
          · rintro ⟨nm, hmem, v, hvrow, hvact, hvid⟩
            rcases List.mem_cons.mp hmem with rfl | hmem2
            · rw [hrow] at hvrow; exact absurd hvrow (by simp)
            · exact ⟨nm, hmem2, v, hvrow, hvact, hvid⟩
      | some v =>
          simp only []
          by_cases hact : is_positive pf v t = true
          · rw [if_pos hact]
            cases hid : l2id.lookup name with
            | none =>
                constructor
                · intro _
                  exact ⟨name, List.mem_cons_self _ _, v, hrow, hact, hid⟩
                · intro _
                  exact ⟨name, rfl⟩
            | some i =>
                rw [ih (ls ++ [name]) (ids ++ [i])]
                constructor
                · rintro ⟨nm, hmem, hv⟩
                  exact ⟨nm, List.mem_cons_of_mem _ hmem, hv⟩
                · rintro ⟨nm, hmem, w, hwrow, hwact, hwid⟩
                  rcases List.mem_cons.mp hmem with rfl | hmem2
                  · rw [hid] at hwid
                    exact absurd hwid (by simp)
                  · exact ⟨nm, hmem2, w, hwrow, hwact, hwid⟩
          · rw [if_neg hact]
            rw [ih ls ids]
            constructor
            · rintro ⟨nm, hmem, hv⟩
              exact ⟨nm, List.mem_cons_of_mem _ hmem, hv⟩
            · rintro ⟨nm, hmem, w, hwrow, hwact, hwid⟩
              rcases List.mem_cons.mp hmem with rfl | hmem2
              · rw [hrow] at hwrow
                have hv : v = w := by injection hwrow
                subst hv
                exact absurd hwact hact
              · exact ⟨nm, hmem2, w, hwrow, hwact, hwid⟩

/-- C6: row_to_labels fails if and only if some label name is present in
the row with an active indicator while absent from label2id; names absent
from the row and names present but inactive never cause a failure. -/
theorem row_to_labels_error_iff (pf : FloatParse) (row : Row) (names : List String)
    (l2id : List (String × Int)) (t : Rat) :
    (∃ e, row_to_labels pf row names l2id t = Except.error e)
    ↔ ∃ name, name ∈ names ∧ ∃ v, row.lookup name = some v
        ∧ is_positive pf v t = true ∧ l2id.lookup name = none :=
  row_to_labels_go_error_iff pf row l2id t names [] []

/-- C3 counterexample: on a concrete labelmap missing the text_column key
the process does not terminate with exit code 2: load_labelmap raises its
ValueError at source line 37, main never catches it (line 121 sits in no
try block), and the interpreter exits with code 1. -/
theorem load_labelmap_exit_code_counterexample :
    exitCodeOf (main_model pf0 args0 badLabelmap sheet0) ≠ some 2 := by
  decide

/-- C3 amended: for every labelmap missing one of the required keys
text_column, label_names, label2id, or whose label_names is not a list or
label2id not a dict, load_labelmap raises a ValueError (the SchemaError of
the specification) whose message reaches stderr only through the
interpreter traceback: the exception propagates uncaught out of main and
the process terminates with exit code 1, not 2. -/
theorem load_labelmap_badshape_uncaught (pf : FloatParse) (args : Args)
    (m : List (String × Json)) (sheet : Sheet) (h : labelmapBadShape m) :
    ∃ msg, main_model pf args m sheet = Outcome.uncaughtValueError msg
      ∧ exitCodeOf (main_model pf args m sheet) = some 1 := by
  have herr : ∃ msg, load_labelmap m = Except.error msg := by
    cases h1 : dictLookup m "text_column" with
    | none => exact ⟨"labelmap missing key: text_column", by simp only [load_labelmap, h1]⟩
    | some jtc =>
        cases h2 : dictLookup m "label_names" with
        | none =>
            exact ⟨"labelmap missing key: label_names", by simp only [load_labelmap, h1, h2]⟩
        | some jn =>
            cases h3 : dictLookup m "label2id" with
            | none =>
                exact ⟨"labelmap missing key: label2id",
                  by simp only [load_labelmap, h1, h2, h3]⟩
            | some ji =>
                rcases h with h | h | h | ⟨j, hj, hne⟩ | ⟨j, hj, hne⟩
                · rw [h1] at h; exact absurd h (by simp)
                · rw [h2] at h; exact absurd h (by simp)
                · rw [h3] at h; exact absurd h (by simp)
                · rw [h2] at hj
                  have hjn : jn = j := by injection hj
                  subst hjn
                  cases jn <;> cases ji <;>
                    first
                      | exact absurd rfl (hne _)
                      | exact ⟨"labelmap has invalid schema (label_names must be list, label2id must be dict)",
                          by simp only [load_labelmap, h1, h2, h3]⟩
                · rw [h3] at hj
                  have hji : ji = j := by injection hj
                  subst hji
                  cases jn <;> cases ji <;>
                    first
                      | exact absurd rfl (hne _)
                      | exact ⟨"labelmap has invalid schema (label_names must be list, label2id must be dict)",
                          by simp only [load_labelmap, h1, h2, h3]⟩
  obtain ⟨msg, hmsg⟩ := herr
  refine ⟨msg, ?_, ?_⟩
  · simp only [main_model, hmsg]
  · simp only [main_model, hmsg, exitCodeOf]

/-- C3 witness: the amended theorem applied to the concrete labelmap with
text_column missing. -/
theorem load_labelmap_badshape_uncaught_witness :
    labelmapBadShape badLabelmap
    ∧ ∃ msg, main_model pf0 args0 badLabelmap sheet0 = Outcome.uncaughtValueError msg
        ∧ exitCodeOf (main_model pf0 args0 badLabelmap sheet0) = some 1 :=
  ⟨Or.inl rfl, load_labelmap_badshape_uncaught pf0 args0 badLabelmap sheet0 (Or.inl rfl)⟩

theorem extractText_empty_or_trimmed (row : Row) (tc : String) :
    extractText row tc = "" ∨ pyStrip (extractText row tc) = extractText row tc := by
  rw [extractText]
  cases h : row.lookup tc with
  | none => exact Or.inl rfl
  | some v =>
      cases v with
      | null => exact Or.inl rfl
      | bool b => exact Or.inr (pyStrip_idem _)
      | num x => exact Or.inr (pyStrip_idem _)
      | str s => exact Or.inr (pyStrip_idem _)

theorem processRow_cases (pf : FloatParse) (args : Args) (lm : Labelmap)
    (st : LoopState) (row : Row) (st2 : LoopState)
    (h : processRow pf args lm st row = Except.ok st2) :
    (extractText row lm.text_column = ""
      ∧ st2 = { st with n_total := st.n_total + 1
                        n_skipped_empty_text := st.n_skipped_empty_text + 1 })
    ∨ (∃ labels ids, extractText row lm.text_column ≠ ""
        ∧ row_to_labels pf row lm.label_names lm.label2id args.threshold =
            Except.ok (labels, ids)
        ∧ ((args.skip_no_label = true ∧ ids = []
             ∧ st2 = { st with n_total := st.n_total + 1
                               n_skipped_no_label := st.n_skipped_no_label + 1 })
          ∨ (¬(args.skip_no_label = true ∧ ids = [])
             ∧ st2 = { st with n_total := st.n_total + 1
                               n_written := st.n_written + 1
                               out := st.out ++
                                 [{ text := extractText row lm.text_column
                                    labels := if args.include_labels && !args.no_labels
                                              then some labels else none
                                    label_ids := ids }] }))) := by
  rw [processRow] at h
  by_cases htext : extractText row lm.text_column = ""
  · rw [if_pos htext] at h
    have h2 := Except.ok.inj h
    exact Or.inl ⟨htext, h2.symm⟩
  · rw [if_neg htext] at h
    cases hrtl : row_to_labels pf row lm.label_names lm.label2id args.threshold with
    | error e => rw [hrtl] at h; exact absurd h (by simp)
    | ok pair =>
        obtain ⟨labels, ids⟩ := pair
        rw [hrtl] at h
        simp only [] at h
        by_cases hskip : (args.skip_no_label && ids.length == 0) = true
        · rw [if_pos hskip] at h
          have h2 := Except.ok.inj h
          refine Or.inr ⟨labels, ids, htext, rfl, Or.inl ⟨?_, ?_, h2.symm⟩⟩
          · exact (Bool.and_eq_true _ _ ▸ hskip).1
          · have := (Bool.and_eq_true _ _ ▸ hskip).2
            simpa [List.length_eq_zero] using this
        · rw [if_neg hskip] at h
          have h2 := Except.ok.inj h
          refine Or.inr ⟨labels, ids, htext, rfl, Or.inr ⟨?_, h2.symm⟩⟩
          intro hcon
          apply hskip
          simp [hcon.1, hcon.2]

theorem runRows_text_ok (pf : FloatParse) (args : Args) (lm : Labelmap) :
    ∀ (rows : List Row) (st st2 : LoopState),
    runRows pf args lm st rows = Except.ok st2 →
    ∀ r, r ∈ st2.out → r ∈ st.out ∨ (r.text ≠ "" ∧ pyStrip r.text = r.text) := by
  intro rows
  induction rows with
  | nil =>
      intro st st2 h r hr
      rw [runRows] at h
      have h2 := Except.ok.inj h
      subst h2
      exact Or.inl hr
  | cons row rest ih =>
      intro st st2 h r hr
      rw [runRows] at h
      cases hp : processRow pf args lm st row with
      | error e => rw [hp] at h; exact absurd h (by simp)
      | ok st1 =>
          rw [hp] at h
          simp only [] at h
          rcases ih st1 st2 h r hr with hin | hok
          · rcases processRow_cases pf args lm st row st1 hp with
              ⟨_, hst⟩ | ⟨labels, ids, htext, _, hbr⟩
            · subst hst; exact Or.inl hin
            · rcases hbr with ⟨_, _, hst⟩ | ⟨_, hst⟩
              · subst hst; exact Or.inl hin
              · subst hst
                simp only [List.mem_append, List.mem_singleton] at hin
                rcases hin with hin | rfl
                · exact Or.inl hin
                · refine Or.inr ⟨htext, ?_⟩
                  rcases extractText_empty_or_trimmed row lm.text_column with he | ht
                  · exact absurd he htext
                  · exact ht
          · exact Or.inr hok

/-- C4: a row whose text cell is missing, null, or trims to the empty
string produces no record and bumps exactly the empty-text skip counter,
the loop continuing; consequently every record of a completed run has
non-empty text that equals its own trim. -/
theorem empty_text_skipped (pf : FloatParse) (args : Args) (lm : Labelmap) :
    (∀ st row, extractText row lm.text_column = "" →
      processRow pf args lm st row =
        Except.ok { st with n_total := st.n_total + 1
                            n_skipped_empty_text := st.n_skipped_empty_text + 1 })
    ∧ (∀ sheet code e s recs smry,
        runConversion pf args lm sheet = Outcome.exited code e s (some recs) smry →
        ∀ r, r ∈ recs → r.text ≠ "" ∧ pyStrip r.text = r.text) := by
  constructor
  · intro st row htext
    rw [processRow]
    rw [if_pos htext]
  · intro sheet code e s recs smry h r hr
    rw [runConversion] at h
    by_cases hm : (missingColumns lm sheet).isEmpty = true
    · rw [if_pos hm] at h
      cases hrun : runRows pf args lm initState sheet.rows with
      | error e2 => rw [hrun] at h; exact absurd h (by simp)
      | ok st =>
          rw [hrun] at h
          simp only [] at h
          have hrecs : recs = st.out := by
            have h4 := (Outcome.exited.inj h).2.2.2.1
            exact (Option.some.inj h4).symm
          subst hrecs
          rcases runRows_text_ok pf args lm sheet.rows initState st hrun r hr with hin | hok
          · simp [initState] at hin
          · exact hok
    · rw [if_neg hm] at h
      exact absurd ((Outcome.exited.inj h).2.2.2.1) (by simp)

/-- C4 witness: the theorem applied to the whitespace-text row and to a
record of the concrete completed run. -/
theorem empty_text_skipped_witness :
    processRow pf0 args0 lm0 initState rowBlank =
      Except.ok { n_total := 1, n_written := 0, n_skipped_empty_text := 1
                  n_skipped_no_label := 0, out := [] }
    ∧ (recFA.text ≠ "" ∧ pyStrip recFA.text = recFA.text) :=
  ⟨(empty_text_skipped pf0 args0 lm0).1 initState rowBlank (by rfl),
   (empty_text_skipped pf0 args0 lm0).2 sheet0 0 [] (summaryLines args0 stFinal0)
     [recFA, recNone] (some (summaryOfState stFinal0)) (by rfl) recFA (by simp)⟩

/-- C5: for a row with non-empty text and no active label, the skip_no_label
flag decides: set, the row is counted as skipped-no-label and nothing is
emitted; unset, a record with empty label_ids is written, and the summary
contains no skipped-no-label line (the counter is not reported). -/
theorem no_label_row_behavior (pf : FloatParse) (args : Args) (lm : Labelmap)
    (st : LoopState) (row : Row) (labels : List String)
    (htext : extractText row lm.text_column ≠ "")
    (hrtl : row_to_labels pf row lm.label_names lm.label2id args.threshold =
      Except.ok (labels, [])) :
    (args.skip_no_label = true →
      processRow pf args lm st row =
        Except.ok { st with n_total := st.n_total + 1
                            n_skipped_no_label := st.n_skipped_no_label + 1 })
    ∧ (args.skip_no_label = false →
      processRow pf args lm st row =
        Except.ok { st with n_total := st.n_total + 1
                            n_written := st.n_written + 1
                            out := st.out ++
                              [{ text := extractText row lm.text_column
                                 labels := if args.include_labels && !args.no_labels
                                           then some labels else none
                                 label_ids := [] }] }
      ∧ ∀ st0, summaryLines args st0 =
          ["Done.",
           "Input rows: " ++ toString st0.n_total,
           "Written:    " ++ toString st0.n_written,
           "Skipped (empty text): " ++ toString st0.n_skipped_empty_text]) := by
  constructor
  · intro hskip
    rw [processRow, if_neg htext, hrtl]
    simp only []
    rw [if_pos (by simp [hskip])]
  · intro hskip
    constructor
    · rw [processRow, if_neg htext, hrtl]
      simp only []
      rw [if_neg (by simp [hskip])]
    · intro st0
      simp [summaryLines, hskip]

/-- C5 witness: the theorem applied to the concrete no-label row under the
default flags (skip_no_label unset). -/
theorem no_label_row_behavior_witness :
    processRow pf0 args0 lm0 initState rowNone =
      Except.ok { initState with n_total := initState.n_total + 1
                                 n_written := initState.n_written + 1
                                 out := initState.out ++
                                   [{ text := extractText rowNone lm0.text_column
                                      labels := if args0.include_labels && !args0.no_labels
                                                then some [] else none
                                      label_ids := [] }] }
    ∧ summaryLines args0 stFinal0 =
        ["Done.",
         "Input rows: " ++ toString stFinal0.n_total,
         "Written:    " ++ toString stFinal0.n_written,
         "Skipped (empty text): " ++ toString stFinal0.n_skipped_empty_text] :=
  have h := (no_label_row_behavior pf0 args0 lm0 initState rowNone []
    (by decide) (by rfl)).2 rfl
  ⟨h.1, h.2 stFinal0⟩

theorem counterInv_step (st st2 : LoopState)
    (htot : st2.n_total = st.n_total + 1)
    (hone : (st2.n_written = st.n_written + 1
              ∧ st2.n_skipped_empty_text = st.n_skipped_empty_text
              ∧ st2.n_skipped_no_label = st.n_skipped_no_label)
          ∨ (st2.n_written = st.n_written
              ∧ st2.n_skipped_empty_text = st.n_skipped_empty_text + 1
              ∧ st2.n_skipped_no_label = st.n_skipped_no_label)
          ∨ (st2.n_written = st.n_written
              ∧ st2.n_skipped_empty_text = st.n_skipped_empty_text
              ∧ st2.n_skipped_no_label = st.n_skipped_no_label + 1))
    (hinv : counterInv st) : counterInv st2 := by
  unfold counterInv at hinv ⊢
  rcases hone with ⟨h1, h2, h3⟩ | ⟨h1, h2, h3⟩ | ⟨h1, h2, h3⟩ <;> omega

theorem processRow_counter_step (pf : FloatParse) (args : Args) (lm : Labelmap)
    (st : LoopState) (row : Row) (st2 : LoopState)
    (h : processRow pf args lm st row = Except.ok st2) :
    st2.n_total = st.n_total + 1
    ∧ ((st2.n_written = st.n_written + 1
         ∧ st2.n_skipped_empty_text = st.n_skipped_empty_text
         ∧ st2.n_skipped_no_label = st.n_skipped_no_label)
      ∨ (st2.n_written = st.n_written
         ∧ st2.n_skipped_empty_text = st.n_skipped_empty_text + 1
         ∧ st2.n_skipped_no_label = st.n_skipped_no_label)
      ∨ (st2.n_written = st.n_written
         ∧ st2.n_skipped_empty_text = st.n_skipped_empty_text
         ∧ st2.n_skipped_no_label = st.n_skipped_no_label + 1)) := by
  rcases processRow_cases pf args lm st row st2 h with
    ⟨_, hst⟩ | ⟨labels, ids, _, _, ⟨_, _, hst⟩ | ⟨_, hst⟩⟩
  · subst hst; exact ⟨rfl, Or.inr (Or.inl ⟨rfl, rfl, rfl⟩)⟩
  · subst hst; exact ⟨rfl, Or.inr (Or.inr ⟨rfl, rfl, rfl⟩)⟩
  · subst hst; exact ⟨rfl, Or.inl ⟨rfl, rfl, rfl⟩⟩

theorem runRows_counterInv (pf : FloatParse) (args : Args) (lm : Labelmap) :
    ∀ (rows : List Row) (st st2 : LoopState),
    runRows pf args lm st rows = Except.ok st2 → counterInv st → counterInv st2 := by
  intro rows
  induction rows with
  | nil =>
      intro st st2 h hinv
      rw [runRows] at h
      have h2 := Except.ok.inj h
      subst h2
      exact hinv
  | cons row rest ih =>
      intro st st2 h hinv
      rw [runRows] at h
      cases hp : processRow pf args lm st row with
      | error e => rw [hp] at h; exact absurd h (by simp)
      | ok st1 =>
          rw [hp] at h
          simp only [] at h
          obtain ⟨htot, hone⟩ := processRow_counter_step pf args lm st row st1 hp
          exact ih st1 st2 h (counterInv_step st st1 htot hone hinv)

/-- C10: every completed row iteration raises n_total by one and exactly
one of the written, skipped-empty-text, skipped-no-label counters, so it
preserves the invariant n_total equals their sum; and every run reaching
the summary satisfies the invariant in its final state. -/
theorem counters_partition :
    (∀ (pf : FloatParse) (args : Args) (lm : Labelmap) (st : LoopState) (row : Row)
       (st2 : LoopState), processRow pf args lm st row = Except.ok st2 →
      st2.n_total = st.n_total + 1
      ∧ ((st2.n_written = st.n_written + 1
           ∧ st2.n_skipped_empty_text = st.n_skipped_empty_text
           ∧ st2.n_skipped_no_label = st.n_skipped_no_label)
        ∨ (st2.n_written = st.n_written
           ∧ st2.n_skipped_empty_text = st.n_skipped_empty_text + 1
           ∧ st2.n_skipped_no_label = st.n_skipped_no_label)
        ∨ (st2.n_written = st.n_written
           ∧ st2.n_skipped_empty_text = st.n_skipped_empty_text
           ∧ st2.n_skipped_no_label = st.n_skipped_no_label + 1))
      ∧ (counterInv st → counterInv st2))
    ∧ (∀ (pf : FloatParse) (args : Args) (lm : Labelmap) (rows : List Row)
       (st2 : LoopState), runRows pf args lm initState rows = Except.ok st2 →
      counterInv st2) := by
  constructor
  · intro pf args lm st row st2 h
    obtain ⟨htot, hone⟩ := processRow_counter_step pf args lm st row st2 h
    exact ⟨htot, hone, counterInv_step st st2 htot hone⟩
  · intro pf args lm rows st2 h
    exact runRows_counterInv pf args lm rows initState st2 h (by simp [counterInv, initState])

/-- C10 witness: the run-level part applied to the concrete sheet, whose
final counters satisfy 3 = 2 + 1 + 0. -/
theorem counters_partition_witness : counterInv stFinal0 :=
  counters_partition.2 pf0 args0 lm0 sheet0.rows stFinal0 (by rfl)

/-- C8: when the text column or any label name is missing from the
spreadsheet columns, the run returns exit code 2, its stderr lines list
every missing name and every available column, and the row loop never ran:
no stdout, no summary, and the output file was never opened. -/
theorem missing_columns_exit (pf : FloatParse) (args : Args) (lm : Labelmap)
    (sheet : Sheet)
    (h : lm.text_column ∉ sheet.columns ∨ ∃ n ∈ lm.label_names, n ∉ sheet.columns) :
    runConversion pf args lm sheet =
      Outcome.exited 2 (missingColumnsStderr (missingColumns lm sheet) sheet.columns)
        [] none none
    ∧ (∀ c ∈ missingColumns lm sheet,
        ("  - " ++ c) ∈ missingColumnsStderr (missingColumns lm sheet) sheet.columns)
    ∧ (∀ c ∈ sheet.columns,
        ("  - " ++ c) ∈ missingColumnsStderr (missingColumns lm sheet) sheet.columns) := by
  have hne : missingColumns lm sheet ≠ [] := by
    rcases h with h | ⟨n, hn, h⟩
    · intro hempty
      have hmem : lm.text_column ∈ missingColumns lm sheet := by
        rw [missingColumns]
        exact List.mem_filter.mpr ⟨List.mem_cons_self _ _, by simpa using h⟩
      rw [hempty] at hmem
      exact absurd hmem (by simp)
    · intro hempty
      have hmem : n ∈ missingColumns lm sheet := by
        rw [missingColumns]
        exact List.mem_filter.mpr ⟨List.mem_cons_of_mem _ hn, by simpa using h⟩
      rw [hempty] at hmem
      exact absurd hmem (by simp)
  refine ⟨?_, ?_, ?_⟩
  · rw [runConversion]
    rw [if_neg (by simpa [List.isEmpty_iff] using hne)]
  · intro c hc
    have hmap : ("  - " ++ c) ∈ (missingColumns lm sheet).map (fun c => "  - " ++ c) :=
      List.mem_map_of_mem _ hc
    rw [missingColumnsStderr]
    exact List.mem_append_left _ (List.mem_append_left _ (List.mem_append_right _ hmap))
  · intro c hc
    have hmap : ("  - " ++ c) ∈ sheet.columns.map (fun c => "  - " ++ c) :=
      List.mem_map_of_mem _ hc
    rw [missingColumnsStderr]
    exact List.mem_append_right _ hmap

/-- C8 witness: the theorem applied to the concrete sheet lacking column A. -/
theorem missing_columns_exit_witness :
    (runConversion pf0 args0 lm0 sheetMissing =
      Outcome.exited 2
        (missingColumnsStderr (missingColumns lm0 sheetMissing) sheetMissing.columns)
        [] none none)
    ∧ (∀ c ∈ missingColumns lm0 sheetMissing,
        ("  - " ++ c) ∈ missingColumnsStderr (missingColumns lm0 sheetMissing)
          sheetMissing.columns)
    ∧ (∀ c ∈ sheetMissing.columns,
        ("  - " ++ c) ∈ missingColumnsStderr (missingColumns lm0 sheetMissing)
          sheetMissing.columns) :=
  missing_columns_exit pf0 args0 lm0 sheetMissing
    (Or.inr ⟨"A", by decide, by decide⟩)

theorem processRow_out_emission (pf : FloatParse) (args : Args) (lm : Labelmap)
    (st : LoopState) (row : Row) (st2 : LoopState)
    (h : processRow pf args lm st row = Except.ok st2) :
    st2.out = st.out ++ (rowEmission pf args lm row).toList := by
  rcases processRow_cases pf args lm st row st2 h with
    ⟨htext, hst⟩ | ⟨labels, ids, htext, hrtl, ⟨hskip, hids, hst⟩ | ⟨hnoskip, hst⟩⟩
  · subst hst
    rw [rowEmission, if_pos htext]
    simp
  · subst hst
    rw [rowEmission, if_neg htext, hrtl]
    simp only []
    rw [if_pos (by simp [hskip, hids])]
    simp
  · subst hst
    rw [rowEmission, if_neg htext, hrtl]
    simp only []
    have hcond : ¬((args.skip_no_label && ids.length == 0) = true) := by
      intro hb
      apply hnoskip
      rw [Bool.and_eq_true] at hb
      exact ⟨hb.1, by simpa [List.length_eq_zero] using hb.2⟩
    rw [if_neg hcond]
    simp

theorem runRows_out_filterMap (pf : FloatParse) (args : Args) (lm : Labelmap) :
    ∀ (rows : List Row) (st st2 : LoopState),
    runRows pf args lm st rows = Except.ok st2 →
    st2.out = st.out ++ rows.filterMap (rowEmission pf args lm) := by
  intro rows
  induction rows with
  | nil =>
      intro st st2 h
      rw [runRows] at h
      have h2 := Except.ok.inj h
      subst h2
      simp
  | cons row rest ih =>
      intro st st2 h
      rw [runRows] at h
      cases hp : processRow pf args lm st row with
      | error e => rw [hp] at h; exact absurd h (by simp)
      | ok st1 =>
          rw [hp] at h
          simp only [] at h
          have h1 := processRow_out_emission pf args lm st row st1 hp
          have h2 := ih st1 st2 h
          rw [h2, h1, List.append_assoc]
          cases he : rowEmission pf args lm row with
          | none => simp [List.filterMap_cons, he]
          | some r => simp [List.filterMap_cons, he]

theorem filterMap_get_position {α β : Type} (f : α → Option β) :
    ∀ (l : List α) (i : Nat) (hi : i < l.length) (b : β),
    f (l.get ⟨i, hi⟩) = some b →
    (l.filterMap f).get? (((l.take i).filterMap f).length) = some b := by
  intro l
  induction l with
  | nil => intro i hi; simp at hi
  | cons a t ih =>
      intro i hi b hb
      cases i with
      | zero =>
          simp only [List.get] at hb
          simp [List.filterMap_cons, hb]
      | succ n =>
          have hn : n < t.length := by simpa using hi
          have hb2 : f (t.get ⟨n, hn⟩) = some b := by simpa using hb
          have hrec := ih n hn b hb2
          rw [List.take_succ_cons]
          cases hfa : f a with
          | none => simpa [List.filterMap_cons, hfa] using hrec
          | some c => simpa [List.filterMap_cons, hfa] using hrec

theorem filterMap_position_mono {α β : Type} (f : α → Option β) :
    ∀ (l : List α) (i j : Nat), i < j → j < l.length →
    ∀ bi, (hi : i < l.length) → f (l.get ⟨i, hi⟩) = some bi →
    ((l.take i).filterMap f).length < ((l.take j).filterMap f).length := by
  intro l
  induction l with
  | nil => intro i j hij hj; simp at hj
  | cons a t ih =>
      intro i j hij hj bi hi hbi
      cases i with
      | zero =>
          cases j with
          | zero => exact absurd hij (by omega)
          | succ m =>
              simp only [List.get] at hbi
              rw [List.take_succ_cons]
              simp [List.filterMap_cons, hbi]
      | succ n =>
          cases j with
          | zero => exact absurd hij (by omega)
          | succ m =>
              have hn : n < t.length := by simpa using hi
              have hm : m < t.length := by simpa using hj
              have hbi2 : f (t.get ⟨n, hn⟩) = some bi := by simpa using hbi
              have hrec := ih n m (by omega) hm bi hn hbi2
              rw [List.take_succ_cons, List.take_succ_cons]
              cases hfa : f a with
              | none => simpa [List.filterMap_cons, hfa] using hrec
              | some c => simpa [List.filterMap_cons, hfa] using hrec

/-- C7: a completed run writes exactly the records of the emitted rows in
spreadsheet order (the output equals the filterMap of rowEmission over the
rows); in particular, for rows i before j that both emit, the record of
row i appears at an earlier output position than the record of row j. -/
theorem output_preserves_row_order (pf : FloatParse) (args : Args) (lm : Labelmap)
    (sheet : Sheet) (code : Nat) (e s : List String) (recs : List Record)
    (smry : Option Summary)
    (h : runConversion pf args lm sheet = Outcome.exited code e s (some recs) smry) :
    recs = sheet.rows.filterMap (rowEmission pf args lm)
    ∧ ∀ (i j : Nat) (hij : i < j) (hj : j < sheet.rows.length) (ri rj : Record),
        rowEmission pf args lm (sheet.rows.get ⟨i, lt_trans hij hj⟩) = some ri →
        rowEmission pf args lm (sheet.rows.get ⟨j, hj⟩) = some rj →
        ∃ k l, k < l ∧ recs.get? k = some ri ∧ recs.get? l = some rj := by
  have hrecs : recs = sheet.rows.filterMap (rowEmission pf args lm) := by
    rw [runConversion] at h
    by_cases hm : (missingColumns lm sheet).isEmpty = true
    · rw [if_pos hm] at h
      cases hrun : runRows pf args lm initState sheet.rows with
      | error e2 => rw [hrun] at h; exact absurd h (by simp)
      | ok st =>
          rw [hrun] at h
          simp only [] at h
          have h4 := (Outcome.exited.inj h).2.2.2.1
          have hout := runRows_out_filterMap pf args lm sheet.rows initState st hrun
          rw [initState] at hout
          simp only [List.nil_append] at hout
          rw [← (Option.some.inj h4), hout]
    · rw [if_neg hm] at h
      exact absurd ((Outcome.exited.inj h).2.2.2.1) (by simp)
  refine ⟨hrecs, ?_⟩
  intro i j hij hj ri rj hri hrj
  refine ⟨((sheet.rows.take i).filterMap (rowEmission pf args lm)).length,
          ((sheet.rows.take j).filterMap (rowEmission pf args lm)).length, ?_, ?_, ?_⟩
  · exact filterMap_position_mono _ sheet.rows i j hij hj ri (lt_trans hij hj) hri
  · rw [hrecs]
    exact filterMap_get_position _ sheet.rows i (lt_trans hij hj) ri hri
  · rw [hrecs]
    exact filterMap_get_position _ sheet.rows j hj rj hrj

/-- C7 witness: the order theorem applied to the concrete run; rows zero
and two both emit, and their records land at output positions zero and
one. -/
theorem output_preserves_row_order_witness :
    [recFA, recNone] = sheet0.rows.filterMap (rowEmission pf0 args0 lm0)
    ∧ ∃ k l, k < l ∧ [recFA, recNone].get? k = some recFA
        ∧ [recFA, recNone].get? l = some recNone :=
  have h := output_preserves_row_order pf0 args0 lm0 sheet0 0 []
    (summaryLines args0 stFinal0) [recFA, recNone] (some (summaryOfState stFinal0)) (by rfl)
  ⟨h.1, h.2 0 2 (by decide) (by decide) recFA recNone (by rfl) (by rfl)⟩

/-- C9: the conversion is deterministic: two runs on equal float parsers,
equal flags, equal labelmap contents and equal spreadsheet contents give
byte-identical output files and identical summary counters. -/
theorem conversion_deterministic (pf1 pf2 : FloatParse) (a1 a2 : Args)
    (m1 m2 : List (String × Json)) (s1 s2 : Sheet)
    (hpf : pf1 = pf2) (ha : a1 = a2) (hm : m1 = m2) (hs : s1 = s2) :
    fileBytesOf (main_model pf1 a1 m1 s1) = fileBytesOf (main_model pf2 a2 m2 s2)
    ∧ summariesOf (main_model pf1 a1 m1 s1) = summariesOf (main_model pf2 a2 m2 s2) := by
  subst hpf; subst ha; subst hm; subst hs
  exact ⟨rfl, rfl⟩

/-- C9 witness: the determinism theorem applied to the concrete run. -/
theorem conversion_deterministic_witness :
    fileBytesOf (main_model pf0 args0 lmJson0 sheet0) =
      fileBytesOf (main_model pf0 args0 lmJson0 sheet0)
    ∧ summariesOf (main_model pf0 args0 lmJson0 sheet0) =
      summariesOf (main_model pf0 args0 lmJson0 sheet0) :=
  conversion_deterministic pf0 pf0 args0 args0 lmJson0 lmJson0 sheet0 sheet0
    rfl rfl rfl rfl

end ConvertDataset
